import Mathlib

/-!
# Shallow embedding of the Arduino toolchain orchestration layer

This file embeds the orchestration logic of `src/arduino_tools.py` from the
arduino-vision repository (board discovery, sketch writing/sanitization,
compile/upload invocation with permission-recovery, serial capture, and the
deploy pipeline) and proves the testable properties stated in the
specification.

Modelling conventions:
* External effects (subprocess invocations of `arduino-cli`, the pyserial
  library, the filesystem, `os.stat`-based permission checks) are passed in
  as explicit outcome parameters, so every function is a pure function of the
  outcomes of its external collaborators.
* Python dictionaries produced by `json.loads` are modelled by the `Json`
  inductive (JSON numbers are modelled as integers, which covers everything
  `arduino-cli` emits in the fields this code reads).
* Python exceptions that the source code does NOT catch are modelled by
  `Except PyErr`; exceptions the code catches are modelled by the
  corresponding explicit outcome constructors.
* Character-level operations (`str.isalnum`, `str.lower`) are modelled with
  ASCII semantics, matching Python on the ASCII plane.
* Functions that shell out additionally return a call counter for the
  external tool, so "the tool is never invoked" is expressible as the
  counter being 0.
-/

namespace ArduinoVision

/-! ## Python value model -/

/-- Model of a parsed JSON value (the result of Python's `json.loads`).
Numbers are modelled as integers; every numeric field this code reads
(`vid`, exit codes) is integral. -/
inductive Json where
  | null
  | bool (b : Bool)
  | num (n : Int)
  | str (s : String)
  | arr (elems : List Json)
  | obj (fields : List (String × Json))

/-- Python exceptions that `list_arduino_boards` does not catch. -/
inductive PyErr where
  | attributeError
  | typeError
  | keyError
  | indexError
deriving DecidableEq, Repr

/-- Python truthiness of a parsed JSON value (`if x:`). -/
def pyTruthy : Json → Bool
  | .null => false
  | .bool b => b
  | .num n => n != 0
  | .str s => s != ""
  | .arr l => !l.isEmpty
  | .obj kvs => !kvs.isEmpty

/-- First binding of a key in a Python dict (parsed JSON objects have
unique keys, so first-match lookup is exact). -/
def pyLookup (kvs : List (String × Json)) (k : String) : Option Json :=
  (kvs.find? (fun kv => kv.1 == k)).map (fun kv => kv.2)

/-- Python `receiver.get(key, default)`: raises `AttributeError` when the
receiver is not a dict (e.g. when `json.loads` produced a list or scalar). -/
def pyGet (j : Json) (k : String) (default : Json) : Except PyErr Json :=
  match j with
  | .obj kvs => .ok ((pyLookup kvs k).getD default)
  | _ => .error .attributeError

/-- Python iteration `for x in j`: lists yield elements, strings yield
1-character strings, dicts yield their keys; scalars raise `TypeError`. -/
def pyIter : Json → Except PyErr (List Json)
  | .arr l => .ok l
  | .str s => .ok (s.data.map (fun c => .str (String.singleton c)))
  | .obj kvs => .ok (kvs.map (fun kv => .str kv.1))
  | _ => .error .typeError

/-- Python subscript `j[0]`: first element of a list (IndexError when
empty), first character of a string, KeyError on a dict without key `0`,
TypeError on scalars. -/
def pyIndex0 : Json → Except PyErr Json
  | .arr (x :: _) => .ok x
  | .arr [] => .error .indexError
  | .str s =>
    match s.data with
    | c :: _ => .ok (.str (String.singleton c))
    | [] => .error .indexError
  | .obj _ => .error .keyError
  | _ => .error .typeError

/-- Python `==` restricted to scalar JSON values (the only values this
program ever compares: port addresses and protocol strings). Composite
values compare unequal here; the deduplication loop raises `TypeError` on
them before any comparison, because they are unhashable. -/
def Json.scalarEq : Json → Json → Bool
  | .null, .null => true
  | .bool a, .bool b => a == b
  | .num a, .num b => a == b
  | .str a, .str b => a == b
  | _, _ => false

/-- A JSON value Python can put in a `set` (hashable: not a list/dict). -/
def Json.hashable : Json → Bool
  | .arr _ => false
  | .obj _ => false
  | _ => true

/-! ## String helpers (ASCII models of Python string methods) -/

/-- ASCII model of Python `str.lower()` on one character: maps `A`-`Z` to
`a`-`z` and leaves everything else unchanged. -/
def pyLowerChar (c : Char) : Char :=
  if c.isUpper then Char.ofNat (c.toNat + 32) else c

/-- ASCII model of Python `str.lower()`. -/
def pyLower (s : String) : String := ⟨s.data.map pyLowerChar⟩

/-- Python's substring operator `pat in s`. -/
def strIncludes (pat s : String) : Bool := decide (pat.data <:+: s.data)

/-- Python `hex(n)` for a nonnegative integer: `0x` followed by lowercase
hexadecimal digits. -/
def pyHex (n : Nat) : String := "0x" ++ String.mk (Nat.toDigits 16 n)

/-! ## Board discovery (`list_arduino_boards`) -/

/-- One entry of pyserial's `serial.tools.list_ports.comports()`:
`device` is the port path, `vid`/`pid` are `None` when the OS reports no
USB identifiers, `description` may be absent. -/
structure PortInfo where
  device : String
  description : Option String
  hwid : String
  vid : Option Nat
  pid : Option Nat

/-- A board dictionary appearing in the list returned by
`list_arduino_boards`. A `none` field models an absent dictionary key:
pyserial-sourced records carry `description`/`hwid`/`vid`/`pid`, while
arduino-cli-sourced records carry `board_name`/`fqbn`/`protocol`. -/
structure Board where
  port : Json
  description : Option Json := none
  hwid : Option Json := none
  vid : Option Json := none
  pid : Option Json := none
  board_name : Option Json := none
  fqbn : Option Json := none
  protocol : Option Json := none

/-- The fixed allow-list of USB vendor IDs treated as Arduino-compatible:
Arduino LLC plus four common USB-serial bridge chip vendors. -/
def ARDUINO_VIDS : List Nat := [0x2341, 0x1a86, 0x0403, 0x10c4, 0x067b]

/-- The pyserial heuristic: a port is an Arduino if its vendor ID is in the
allow-list, or its description (when truthy) contains `"arduino"`
case-insensitively. -/
def isArduino (p : PortInfo) : Bool :=
  (match p.vid with
   | some v => ARDUINO_VIDS.contains v
   | none => false)
  || (match p.description with
      | some d => (d != "") && strIncludes "arduino" (pyLower d)
      | none => false)

/-- The record built for a pyserial-detected port: note it has no `fqbn`
key. `port.description or "Unknown Arduino"` substitutes the default on a
falsy description, and `hex(port.vid) if port.vid else None` yields `None`
for an absent or zero vendor ID. -/
def pyserialBoard (p : PortInfo) : Board :=
  { port := .str p.device
    description := some (.str (match p.description with
      | some d => if d = "" then "Unknown Arduino" else d
      | none => "Unknown Arduino"))
    hwid := some (.str p.hwid)
    vid := some (match p.vid with
      | some v => if v = 0 then .null else .str (pyHex v)
      | none => .null)
    pid := some (match p.pid with
      | some v => if v = 0 then .null else .str (pyHex v)
      | none => .null) }

/-- Outcome of the pyserial detection source: whether the library imported
(`HAS_SERIAL`) and, if so, what `comports()` returned. -/
structure SerialEnv where
  hasSerial : Bool
  ports : List PortInfo

/-- Method 1 of `list_arduino_boards`: the pyserial USB-ID heuristic scan.
Skipped entirely when pyserial is not installed. -/
def pyserialBoards (env : SerialEnv) : List Board :=
  if env.hasSerial then (env.ports.filter isArduino).map pyserialBoard else []

/-- What `json.loads` did to the tool's standard output. -/
inductive JsonParse where
  | invalid
  | valid (j : Json)

/-- Outcome of the `arduino-cli board list --format json` subprocess call:
binary missing (`FileNotFoundError`), timeout after 10s
(`subprocess.TimeoutExpired`), or a completed run with an exit code and
parsed-or-not standard output. -/
inductive ToolOutcome where
  | noTool
  | timedOut
  | ran (returncode : Int) (stdout : JsonParse)

/-- The `protocol and "serial" not in protocol` test on a detected port:
returns `true` when the port must be skipped (truthy protocol not
containing `"serial"`). Python's `in` works on strings, lists and dict
keys and raises `TypeError` on truthy numbers or booleans. -/
def protocolExcluded (p : Json) : Except PyErr Bool :=
  if pyTruthy p then
    match p with
    | .str s => .ok (!strIncludes "serial" s)
    | .arr l => .ok (!(l.any (fun e => match e with | .str s => s == "serial" | _ => false)))
    | .obj kvs => .ok (!((kvs.map (fun kv => kv.1)).contains "serial"))
    | _ => .error .typeError
  else
    .ok false

/-- Processing of one entry of `detected_ports`: mirror of the loop body in
`list_arduino_boards`. Yields zero boards for skipped ports, one board for
matched or clone ports, or propagates the Python exception an unexpected
shape would raise. -/
def processDetected (detected : Json) : Except PyErr (List Board) := do
  let port_info ← pyGet detected "port" (.obj [])
  let address ← pyGet port_info "address" (.str "")
  if !pyTruthy address then
    return []
  let protocol ← pyGet port_info "protocol" (.str "")
  let skip ← protocolExcluded protocol
  if skip then
    return []
  let mb ← pyGet detected "matching_boards" .null
  if pyTruthy mb then
    let board_info ← pyIndex0 mb
    let name ← pyGet board_info "name" (.str "Unknown Board")
    let fqbn ← pyGet board_info "fqbn" (.str "arduino:avr:uno")
    return [{ port := address, board_name := some name, fqbn := some fqbn,
              protocol := some protocol }]
  else
    return [{ port := address, board_name := some (.str "Arduino (clone/unrecognised)"),
              fqbn := some (.str "arduino:avr:uno"), protocol := some protocol }]

/-- Method 2 of `list_arduino_boards`: the arduino-cli detection source.
`FileNotFoundError`, `TimeoutExpired` and `json.JSONDecodeError` are caught
(warning printed, source skipped); a non-zero exit code is silently
skipped; any other exception escapes. -/
def cliBoards (tool : ToolOutcome) : Except PyErr (List Board) :=
  match tool with
  | .noTool => .ok []
  | .timedOut => .ok []
  | .ran rc out =>
    if rc = 0 then
      match out with
      | .invalid => .ok []
      | .valid j => do
        let dp ← pyGet j "detected_ports" (.arr [])
        let items ← pyIter dp
        let lists ← items.mapM processDetected
        return lists.flatten
    else
      .ok []

/-- The final deduplication loop of `list_arduino_boards`: keeps the first
record seen for each port (`seen_ports` accumulates ports already kept).
Putting an unhashable port value into the set raises `TypeError`. -/
def dedupBoards : List Board → List Json → Except PyErr (List Board)
  | [], _ => .ok []
  | b :: rest, seen =>
    if !b.port.hashable then
      .error .typeError
    else if seen.any (Json.scalarEq b.port) then
      dedupBoards rest seen
    else do
      let tail ← dedupBoards rest (b.port :: seen)
      return b :: tail

/-- Pure description of the deduplication loop on the success path: keep
the first record for each port, drop later ones. -/
def firstByPort : List Board → List Json → List Board
  | [], _ => []
  | b :: rest, seen =>
    if seen.any (Json.scalarEq b.port) then firstByPort rest seen
    else b :: firstByPort rest (b.port :: seen)

/-- `list_arduino_boards`: pyserial heuristic records first, then
arduino-cli records, deduplicated by port. -/
def list_arduino_boards (env : SerialEnv) (tool : ToolOutcome) :
    Except PyErr (List Board) := do
  let m2 ← cliBoards tool
  dedupBoards (pyserialBoards env ++ m2) []

/-- Discriminator for a non-exceptional discovery outcome. -/
def discoveryOk : Except PyErr (List Board) → Bool
  | .ok _ => true
  | .error _ => false

/-! ## Well-shaped tool output (the exception-free region of method 2) -/

/-- One `detected_ports` entry of the shape `arduino-cli` actually emits:
an object whose `port` value (if present) is an object with string-typed
`address`/`protocol`, and whose `matching_boards` value (if present) is
null or a list that is empty or starts with an object. -/
def wellShapedDetected (d : Json) : Bool :=
  match d with
  | .obj kvs =>
    (match pyLookup kvs "port" with
     | none => true
     | some (.obj pkvs) =>
       (match pyLookup pkvs "address" with
        | none => true
        | some (.str _) => true
        | some _ => false)
       && (match pyLookup pkvs "protocol" with
           | none => true
           | some (.str _) => true
           | some _ => false)
     | some _ => false)
    && (match pyLookup kvs "matching_boards" with
        | none => true
        | some .null => true
        | some (.arr []) => true
        | some (.arr (.obj _ :: _)) => true
        | some _ => false)
  | _ => false

/-- A parsed tool output of the shape `arduino-cli` actually emits: a
top-level object whose `detected_ports` value (if present) is a list of
well-shaped entries. -/
def wellShapedOutput (j : Json) : Bool :=
  match j with
  | .obj kvs =>
    (match pyLookup kvs "detected_ports" with
     | none => true
     | some (.arr ds) => ds.all wellShapedDetected
     | some _ => false)
  | _ => false

/-- Tool outcomes on which discovery is exception-free: every caught
failure shape, any non-zero exit, and successfully parsed output of the
expected shape. -/
def wellShapedTool : ToolOutcome → Bool
  | .noTool => true
  | .timedOut => true
  | .ran rc out =>
    if rc = 0 then
      match out with
      | .invalid => true
      | .valid j => wellShapedOutput j
    else
      true

/-! ## Sketch writer (`write_sketch`) -/

/-- The sanitizer in `write_sketch`: keep only alphanumerics and
underscores, lowercase the result, and fall back to `"sketch"` when
nothing survives. ASCII model of `c.isalnum()` / `str.lower()`. -/
def safe_name (name : String) : String :=
  let s : String := ⟨(name.data.filter (fun c => c.isAlphanum || c == '_')).map pyLowerChar⟩
  if s = "" then "sketch" else s

/-- The folder path `write_sketch` returns: `SKETCH_DIR / safe_name`,
with the process-wide sketch root passed in explicitly. -/
def sketch_folder_path (sketchDir name : String) : String :=
  sketchDir ++ "/" ++ safe_name name

/-! ## Compiler and uploader invocations -/

/-- A completed `subprocess.run`: exit code plus captured streams. -/
structure ProcResult where
  returncode : Int
  stdout : String
  stderr : String

/-- Outcome of a `subprocess.run` call on an external tool: completed,
binary missing (`FileNotFoundError`), or killed by the timeout
(`subprocess.TimeoutExpired`). -/
inductive RunOutcome where
  | completed (r : ProcResult)
  | noTool
  | timedOut

/-- The uniform result dictionary returned by `compile_sketch` and
`upload_sketch`: `errors = none` models the Python value `None`. -/
structure OpResult where
  success : Bool
  output : String
  errors : Option String

/-- `compile_sketch`: success iff exit code 0; stderr is surfaced as
`errors` only on failure (`None` otherwise); tool-missing and timeout are
reported with fixed messages. -/
def compile_sketch (run : RunOutcome) : OpResult :=
  match run with
  | .completed r =>
    { success := r.returncode == 0
      output := r.stdout
      errors := if r.returncode != 0 then some r.stderr else none }
  | .noTool =>
    { success := false, output := "",
      errors := some "arduino-cli not found. Please install it first." }
  | .timedOut =>
    { success := false, output := "",
      errors := some "Compilation timed out after 120 seconds." }

/-- The remediation template `_permission_denied_hint(port)`: the literal
port plus three fix options (temporary chmod, permanent group membership,
persistent udev rule). -/
def permission_denied_hint (port : String) : String :=
  "Permission denied on " ++ port ++ ".\n" ++
  "Fix options (run in WSL terminal):\n" ++
  "  Quick (resets on unplug):  sudo chmod a+rw " ++ port ++ "\n" ++
  "  Permanent (needs re-login): sudo usermod -a -G uucp $USER\n" ++
  "  Permanent (udev rule):     sudo cp 99-usb-serial.rules /etc/udev/rules.d/ && sudo udevadm control --reload-rules && sudo udevadm trigger"

/-- Outcomes of the uploader's external collaborators:
`portAccessible` is the result of the `check_port_accessible` pre-flight
stat check, `fixSucceeds` is the `success` field of
`fix_port_permissions` (the `sudo -n chmod` attempt), and `run` is the
`arduino-cli upload` subprocess outcome if it is reached. -/
structure UploadEnv where
  portAccessible : Bool
  fixSucceeds : Bool
  run : RunOutcome

/-- `upload_sketch`: pre-flight accessibility check with one
privilege-escalation fix attempt, short-circuiting to the remediation hint
without invoking the tool when both fail; otherwise invokes `arduino-cli
upload` and, when its stderr reports a permission-denied failure, prepends
the same hint ahead of the raw error text. The second component counts
invocations of the external upload tool. -/
def upload_sketch (port : String) (env : UploadEnv) : OpResult × Nat :=
  if !env.portAccessible && !env.fixSucceeds then
    ({ success := false, output := "",
       errors := some (permission_denied_hint port) }, 0)
  else
    match env.run with
    | .completed r =>
      let success := r.returncode == 0
      let errors0 : Option String := if success then none else some r.stderr
      let errors : Option String :=
        match errors0 with
        | some e =>
          if (e != "") && strIncludes "permission denied" (pyLower e) then
            some (permission_denied_hint port ++ "\n\nOriginal error:\n" ++ e)
          else
            some e
        | none => none
      ({ success := success, output := r.stdout, errors := errors }, 1)
    | .noTool =>
      ({ success := false, output := "",
         errors := some "arduino-cli not found. Please install it first." }, 1)
    | .timedOut =>
      ({ success := false, output := "",
         errors := some "Upload timed out after 60 seconds." }, 1)

/-! ## Serial reader (`read_serial`) -/

/-- One iteration of the polling loop: no bytes waiting, a swallowed
read/decode exception, or a line as it stands after
`readline().decode("utf-8", errors="ignore").strip()`. -/
inductive SerialEvent where
  | idle
  | readFailed
  | line (s : String)

/-- Outcome of opening (and holding) the serial connection:
`serial.SerialException` and generic exceptions are reported as distinct
error strings. -/
inductive SerialOpen where
  | opened
  | serialError (msg : String)
  | otherError (msg : String)

/-- The collection step of the polling loop: keep the decoded, stripped
lines that are non-empty. A duration of 0 means the loop body never runs,
i.e. the event list is empty. -/
def collectLines : List SerialEvent → List String
  | [] => []
  | .line s :: rest => if s != "" then s :: collectLines rest else collectLines rest
  | .idle :: rest => collectLines rest
  | .readFailed :: rest => collectLines rest

/-- `read_serial`: pyserial-missing and connection errors return fixed
error strings; otherwise the collected lines are newline-joined, with a
sentinel when nothing was captured. -/
def read_serial (hasSerial : Bool) (conn : SerialOpen) (events : List SerialEvent) : String :=
  if !hasSerial then
    "Error: pyserial not installed"
  else
    match conn with
    | .serialError e => "Serial error: " ++ e
    | .otherError e => "Error reading serial: " ++ e
    | .opened =>
      let lines := collectLines events
      if lines.isEmpty then "No serial output received"
      else String.intercalate "\n" lines

/-- Specification-side description of the captured text: the decoded lines
of the polling window, with empty ones dropped. -/
def nonEmptyDecodedLines (events : List SerialEvent) : List String :=
  (events.filterMap (fun e => match e with | .line s => some s | _ => none)).filter
    (fun s => s != "")

/-! ## Deploy pipeline (`deploy_code`) -/

/-- Outcome of the `write_sketch` stage: the filesystem write either
succeeds or raises, and `deploy_code` turns the exception text into a
write-stage failure. -/
inductive WriteOutcome where
  | wrote
  | raised (msg : String)

/-- Outcomes of the three stages' external collaborators. -/
structure DeployEnv where
  write : WriteOutcome
  compileRun : RunOutcome
  upload : UploadEnv

/-- The dictionary returned by `deploy_code`; a `none` field models an
absent key (the write-stage failure dict has no `sketch_path` key, the
success dict has no `stage`/`error` keys). -/
structure DeployResult where
  success : Bool
  stage : Option String := none
  error : Option String := none
  sketch_path : Option String := none
  message : Option String := none
  port : Option String := none

/-- `deploy_code`: write, then compile, then upload, halting at the first
failing stage with that stage's name and error text; failures after a
successful write also report the sketch folder path. The second component
counts invocations of the external upload tool. -/
def deploy_code (sketchDir : String) (_code : String) (port name : String)
    (env : DeployEnv) : DeployResult × Nat :=
  match env.write with
  | .raised e => ({ success := false, stage := some "write", error := some e }, 0)
  | .wrote =>
    let sketch_path := sketch_folder_path sketchDir name
    let compile_result := compile_sketch env.compileRun
    if !compile_result.success then
      ({ success := false, stage := some "compile", error := compile_result.errors,
         sketch_path := some sketch_path }, 0)
    else
      let ur := upload_sketch port env.upload
      if !ur.1.success then
        ({ success := false, stage := some "upload", error := ur.1.errors,
           sketch_path := some sketch_path }, ur.2)
      else
        ({ success := true, message := some "Code deployed successfully!",
           sketch_path := some sketch_path, port := some port }, ur.2)

/-! ## Concrete inputs used to instantiate the theorems -/

/-- A deploy environment where the write succeeds, the compiler exits 1
with stderr `"compile boom"`, and the uploader would short-circuit. -/
def envCompileFail : DeployEnv :=
  ⟨.wrote, .completed ⟨1, "", "compile boom"⟩, ⟨true, false, .noTool⟩⟩

/-- A deploy environment where write and compile succeed and the upload
tool exits 1. -/
def envUploadFail : DeployEnv :=
  ⟨.wrote, .completed ⟨0, "", ""⟩, ⟨true, false, .completed ⟨1, "", "flash failed"⟩⟩⟩

/-- An upload environment where the pre-flight passes but the tool itself
reports a permission-denied failure. -/
def envToolPermDenied : UploadEnv :=
  ⟨true, false, .completed ⟨1, "", "avrdude: ser_open(): cannot open device: Permission denied"⟩⟩

/-- A pyserial port entry for an official Arduino Uno. -/
def portUno : PortInfo :=
  ⟨"/dev/ttyACM0", some "Arduino Uno", "USB VID:PID=2341:0043", some 0x2341, some 0x0043⟩

/-- A discovery environment whose only source is the pyserial heuristic. -/
def envUnoOnly : SerialEnv := ⟨true, [portUno]⟩

/-- A pyserial port entry for a CH340-based clone on `/dev/ttyUSB0`. -/
def portClone : PortInfo :=
  ⟨"/dev/ttyUSB0", some "USB Serial", "USB VID:PID=1A86:7523", some 0x1a86, some 0x7523⟩

/-- A discovery environment that sees the clone via pyserial. -/
def envClone : SerialEnv := ⟨true, [portClone]⟩

/-- An arduino-cli outcome reporting a matched board on the same port
`/dev/ttyUSB0` that the pyserial heuristic already found. -/
def toolSamePort : ToolOutcome :=
  .ran 0 (.valid (.obj [("detected_ports", .arr [
    .obj [("port", .obj [("address", .str "/dev/ttyUSB0"), ("protocol", .str "serial")]),
          ("matching_boards", .arr [.obj [("name", .str "Arduino Uno"),
                                          ("fqbn", .str "arduino:avr:uno")]])]])]))

/-- The heuristic-sourced record for the clone port. -/
def hBoardClone : Board := pyserialBoard portClone

/-- The tool-sourced record for the same port (dropped by deduplication). -/
def tBoardUno : Board :=
  { port := .str "/dev/ttyUSB0", board_name := some (.str "Arduino Uno"),
    fqbn := some (.str "arduino:avr:uno"), protocol := some (.str "serial") }

/-! ## Helper lemmas: scalar equality -/

theorem Json.scalarEq_eq : ∀ {a b : Json}, Json.scalarEq a b = true → a = b := by
  intro a b h
  cases a <;> cases b <;> simp_all [Json.scalarEq]

theorem Json.scalarEq_refl : ∀ {a : Json}, a.hashable = true → Json.scalarEq a a = true := by
  intro a h
  cases a <;> simp_all [Json.scalarEq, Json.hashable]

theorem Json.scalarEq_symm (a b : Json) : Json.scalarEq a b = Json.scalarEq b a := by
  cases a <;> cases b <;> simp [Json.scalarEq] <;> exact eq_comm

/-! ## Helper lemmas: substring facts -/

theorem strIncludes_mono (pat s t : String) (h : strIncludes pat s = true)
    (hsub : s.data <:+: t.data) : strIncludes pat t = true := by
  simp only [strIncludes, decide_eq_true_eq] at h ⊢
  exact h.trans hsub

theorem strIncludes_self (s : String) : strIncludes s s = true := by
  simp [strIncludes]

theorem infix_tail {α : Type} (a x : List α) : x <:+: a ++ x :=
  ⟨a, [], by simp⟩

theorem infix_ext_right {α : Type} (a : List α) {x l : List α} (h : x <:+: l) :
    x <:+: l ++ a := by
  obtain ⟨s, t, hst⟩ := h
  exact ⟨s, t ++ a, by rw [← hst]; simp⟩

theorem hint_data_decomposed (port : String) : (permission_denied_hint port).data =
    "Permission denied on ".data ++ port.data ++ ".\n".data ++
    "Fix options (run in WSL terminal):\n".data ++
    "  Quick (resets on unplug):  sudo chmod a+rw ".data ++ port.data ++
    "\n  Permanent (needs re-login): sudo usermod -a -G uucp $USER\n".data ++
    "  Permanent (udev rule):     sudo cp 99-usb-serial.rules /etc/udev/rules.d/ && sudo udevadm control --reload-rules && sudo udevadm trigger".data := by
  simp [permission_denied_hint, String.data_append]

theorem hint_contains_port (port : String) :
    strIncludes port (permission_denied_hint port) = true := by
  simp only [strIncludes, decide_eq_true_eq]
  rw [hint_data_decomposed]
  exact infix_ext_right _ (infix_ext_right _ (infix_ext_right _ (infix_ext_right _
    (infix_ext_right _ (infix_ext_right _ (infix_tail _ _))))))

theorem hint_contains_chmod (port : String) :
    strIncludes "sudo chmod a+rw" (permission_denied_hint port) = true := by
  simp only [strIncludes, decide_eq_true_eq]
  rw [hint_data_decomposed]
  refine List.IsInfix.trans ?_ (infix_ext_right _ (infix_ext_right _
    (infix_ext_right _ (infix_tail _ _))))
  decide

theorem hint_contains_usermod (port : String) :
    strIncludes "sudo usermod -a -G uucp" (permission_denied_hint port) = true := by
  simp only [strIncludes, decide_eq_true_eq]
  rw [hint_data_decomposed]
  refine List.IsInfix.trans ?_ (infix_ext_right _ (infix_tail _ _))
  decide

theorem hint_contains_udev (port : String) :
    strIncludes "sudo cp 99-usb-serial.rules /etc/udev/rules.d/"
      (permission_denied_hint port) = true := by
  simp only [strIncludes, decide_eq_true_eq]
  rw [hint_data_decomposed]
  exact List.IsInfix.trans (by decide) (infix_tail _ _)

/-! ## Helper lemmas: the sanitizer's character classes -/

theorem pyLowerChar_class (c : Char) (h : (c.isAlphanum || c == '_') = true) :
    ((pyLowerChar c).isLower || (pyLowerChar c).isDigit || pyLowerChar c == '_') = true := by
  unfold pyLowerChar
  by_cases hu : c.isUpper = true
  · rw [if_pos hu]
    have hb : 65 ≤ c.toNat ∧ c.toNat ≤ 90 := by simpa [Char.isUpper] using hu
    have hl : (Char.ofNat (c.toNat + 32)).isLower = true := by
      obtain ⟨h1, h2⟩ := hb
      set n := c.toNat with hn
      interval_cases n <;> decide
    simp [hl]
  · rw [if_neg hu]
    rw [Bool.not_eq_true] at hu
    simp only [Char.isAlphanum, Char.isAlpha, hu, Bool.false_or] at h
    rcases Bool.or_eq_true_iff.mp h with h' | h'
    · rcases Bool.or_eq_true_iff.mp h' with h'' | h''
      · simp [h'']
      · simp [h'']
    · simp [h']

theorem safe_name_chars (name : String) :
    ∀ c ∈ (safe_name name).data,
      (c.isLower || c.isDigit || c == '_') = true := by
  unfold safe_name
  intro c hc
  by_cases he :
      (⟨(name.data.filter (fun c => c.isAlphanum || c == '_')).map pyLowerChar⟩ : String) = ""
  · rw [if_pos he] at hc
    fin_cases hc <;> decide
  · rw [if_neg he] at hc
    have hc' : c ∈ (name.data.filter (fun c => c.isAlphanum || c == '_')).map pyLowerChar := hc
    obtain ⟨c', hc'mem, rfl⟩ := List.mem_map.mp hc'
    exact pyLowerChar_class c' (List.mem_filter.mp hc'mem).2

theorem safe_name_nonempty (name : String) : safe_name name ≠ "" := by
  show (if (⟨(name.data.filter (fun c => c.isAlphanum || c == '_')).map pyLowerChar⟩ : String) = ""
        then "sketch"
        else (⟨(name.data.filter (fun c => c.isAlphanum || c == '_')).map pyLowerChar⟩ : String)) ≠ ""
  split
  · decide
  · assumption

theorem safe_name_all_junk (name : String)
    (h : ∀ c ∈ name.data, (c.isAlphanum || c == '_') = false) :
    safe_name name = "sketch" := by
  unfold safe_name
  have hf : name.data.filter (fun c => c.isAlphanum || c == '_') = [] := by
    rw [List.filter_eq_nil_iff]
    intro a ha
    simp [h a ha]
  rw [hf]
  rfl

/-! ## Helper lemmas: `Except`-valued `mapM` -/

theorem mapM_ok_mem {α β ε : Type} (f : α → Except ε β) :
    ∀ (ds : List α) (ls : List β), ds.mapM f = .ok ls → ∀ x ∈ ls, ∃ d ∈ ds, f d = .ok x := by
  intro ds
  induction ds with
  | nil =>
    intro ls h x hx
    simp only [List.mapM_nil, pure, Except.pure, Except.ok.injEq] at h
    subst h
    simp at hx
  | cons d rest ih =>
    intro ls h x hx
    rw [List.mapM_cons] at h
    cases hf : f d with
    | error e => simp [hf, bind, Except.bind] at h
    | ok y =>
      simp only [hf, bind, Except.bind] at h
      cases hr : rest.mapM f with
      | error e => rw [hr] at h; simp at h
      | ok ys =>
        rw [hr] at h
        simp only [pure, Except.pure, Except.ok.injEq] at h
        subst h
        rcases List.mem_cons.mp hx with rfl | hx'
        · exact ⟨d, List.mem_cons_self d rest, hf⟩
        · obtain ⟨d', hd', hfd'⟩ := ih ys hr x hx'
          exact ⟨d', List.mem_cons_of_mem d hd', hfd'⟩

theorem mapM_total {α β ε : Type} (f : α → Except ε β) :
    ∀ (ds : List α), (∀ d ∈ ds, ∃ x, f d = .ok x) → ∃ ls, ds.mapM f = .ok ls := by
  intro ds
  induction ds with
  | nil => intro _; exact ⟨[], rfl⟩
  | cons d rest ih =>
    intro h
    obtain ⟨y, hy⟩ := h d (List.mem_cons_self d rest)
    obtain ⟨ys, hys⟩ := ih (fun d' hd' => h d' (List.mem_cons_of_mem d hd'))
    refine ⟨y :: ys, ?_⟩
    rw [List.mapM_cons]
    simp only [hy, bind, Except.bind]
    rw [hys]
    rfl

/-! ## Helper lemmas: deduplication -/

theorem dedupBoards_all_hashable :
    ∀ (bs : List Board) (seen : List Json) (l : List Board),
      dedupBoards bs seen = .ok l → ∀ b ∈ bs, b.port.hashable = true := by
  intro bs
  induction bs with
  | nil => intro seen l _ b hb; simp at hb
  | cons b0 rest ih =>
    intro seen l h b hb
    unfold dedupBoards at h
    by_cases hh : b0.port.hashable = true
    · rcases List.mem_cons.mp hb with rfl | hb'
      · exact hh
      · rw [hh] at h
        simp only [Bool.not_true, Bool.false_eq_true, if_false] at h
        by_cases hs : seen.any (Json.scalarEq b0.port) = true
        · rw [if_pos hs] at h
          exact ih seen l h b hb'
        · rw [if_neg hs] at h
          cases hr : dedupBoards rest (b0.port :: seen) with
          | error e => rw [hr] at h; simp [bind, Except.bind] at h
          | ok tail => exact ih (b0.port :: seen) tail hr b hb'
    · rw [Bool.not_eq_true] at hh
      rw [hh] at h
      simp at h

theorem dedupBoards_ok_firstByPort :
    ∀ (bs : List Board) (seen : List Json) (l : List Board),
      dedupBoards bs seen = .ok l → l = firstByPort bs seen := by
  intro bs
  induction bs with
  | nil =>
    intro seen l h
    simp only [dedupBoards, Except.ok.injEq] at h
    simp [firstByPort, ← h]
  | cons b0 rest ih =>
    intro seen l h
    unfold dedupBoards at h
    unfold firstByPort
    by_cases hh : b0.port.hashable = true
    · rw [hh] at h
      simp only [Bool.not_true, Bool.false_eq_true, if_false] at h
      by_cases hs : seen.any (Json.scalarEq b0.port) = true
      · rw [if_pos hs] at h
        rw [if_pos hs]
        exact ih seen l h
      · rw [if_neg hs] at h
        rw [if_neg hs]
        cases hr : dedupBoards rest (b0.port :: seen) with
        | error e => rw [hr] at h; simp [bind, Except.bind] at h
        | ok tail =>
          rw [hr] at h
          simp only [bind, Except.bind, pure, Except.pure, Except.ok.injEq] at h
          rw [← h, ih (b0.port :: seen) tail hr]
    · rw [Bool.not_eq_true] at hh
      rw [hh] at h
      simp at h

theorem dedupBoards_total :
    ∀ (bs : List Board) (seen : List Json),
      (∀ b ∈ bs, b.port.hashable = true) → ∃ l, dedupBoards bs seen = .ok l := by
  intro bs
  induction bs with
  | nil => intro seen _; exact ⟨[], rfl⟩
  | cons b0 rest ih =>
    intro seen hall
    have hh : b0.port.hashable = true := hall b0 (List.mem_cons_self b0 rest)
    have hrest : ∀ b ∈ rest, b.port.hashable = true :=
      fun b hb => hall b (List.mem_cons_of_mem b0 hb)
    unfold dedupBoards
    rw [hh]
    simp only [Bool.not_true, Bool.false_eq_true, if_false]
    by_cases hs : seen.any (Json.scalarEq b0.port) = true
    · rw [if_pos hs]
      exact ih seen hrest
    · rw [if_neg hs]
      obtain ⟨tail, htail⟩ := ih (b0.port :: seen) hrest
      exact ⟨b0 :: tail, by simp [htail, bind, Except.bind, pure, Except.pure]⟩

/-! ## Helper lemmas: first-occurrence-wins shape of the deduplicated list -/

theorem firstByPort_mem :
    ∀ (bs : List Board) (seen : List Json) (b' : Board), b' ∈ firstByPort bs seen →
      b' ∈ bs ∧ seen.any (Json.scalarEq b'.port) = false := by
  intro bs
  induction bs with
  | nil => intro seen b' h; simp [firstByPort] at h
  | cons b0 rest ih =>
    intro seen b' h
    unfold firstByPort at h
    by_cases hs : seen.any (Json.scalarEq b0.port) = true
    · rw [if_pos hs] at h
      obtain ⟨hmem, hns⟩ := ih seen b' h
      exact ⟨List.mem_cons_of_mem b0 hmem, hns⟩
    · rw [if_neg hs] at h
      rcases List.mem_cons.mp h with rfl | h'
      · exact ⟨List.mem_cons_self b' rest, by rw [Bool.not_eq_true] at hs; exact hs⟩
      · obtain ⟨hmem, hns⟩ := ih (b0.port :: seen) b' h'
        rw [List.any_cons, Bool.or_eq_false_iff] at hns
        exact ⟨List.mem_cons_of_mem b0 hmem, hns.2⟩

theorem firstByPort_pairwise :
    ∀ (bs : List Board) (seen : List Json), (∀ b ∈ bs, b.port.hashable = true) →
      (firstByPort bs seen).Pairwise (fun a b => a.port ≠ b.port) := by
  intro bs
  induction bs with
  | nil => intro seen _; simp [firstByPort]
  | cons b0 rest ih =>
    intro seen hall
    have hh : b0.port.hashable = true := hall b0 (List.mem_cons_self b0 rest)
    have hrest : ∀ b ∈ rest, b.port.hashable = true :=
      fun b hb => hall b (List.mem_cons_of_mem b0 hb)
    unfold firstByPort
    by_cases hs : seen.any (Json.scalarEq b0.port) = true
    · rw [if_pos hs]
      exact ih seen hrest
    · rw [if_neg hs]
      refine List.Pairwise.cons ?_ (ih (b0.port :: seen) hrest)
      intro b' hb' heq
      have hns := (firstByPort_mem rest (b0.port :: seen) b' hb').2
      rw [List.any_cons, Bool.or_eq_false_iff] at hns
      have hre : Json.scalarEq b'.port b0.port = true := by
        rw [← heq]
        exact Json.scalarEq_refl (heq ▸ hh)
      rw [hns.1] at hre
      exact Bool.false_ne_true hre

theorem firstByPort_find :
    ∀ (bs : List Board) (seen : List Json), (∀ b ∈ bs, b.port.hashable = true) →
      ∀ b' ∈ firstByPort bs seen,
        bs.find? (fun b => Json.scalarEq b.port b'.port) = some b' := by
  intro bs
  induction bs with
  | nil => intro seen _ b' h; simp [firstByPort] at h
  | cons b0 rest ih =>
    intro seen hall b' h
    have hh : b0.port.hashable = true := hall b0 (List.mem_cons_self b0 rest)
    have hrest : ∀ b ∈ rest, b.port.hashable = true :=
      fun b hb => hall b (List.mem_cons_of_mem b0 hb)
    unfold firstByPort at h
    by_cases hs : seen.any (Json.scalarEq b0.port) = true
    · rw [if_pos hs] at h
      have hns := (firstByPort_mem rest seen b' h).2
      have hne : Json.scalarEq b0.port b'.port = false := by
        by_contra hcon
        rw [Bool.not_eq_false] at hcon
        have hpe := Json.scalarEq_eq hcon
        rw [← hpe] at hns
        rw [hns] at hs
        exact Bool.false_ne_true hs
      rw [List.find?_cons_of_neg _ (by simp [hne]), ih seen hrest b' h]
    · rw [if_neg hs] at h
      rcases List.mem_cons.mp h with rfl | h'
      · exact List.find?_cons_of_pos rest (Json.scalarEq_refl hh)
      · have hns := (firstByPort_mem rest (b0.port :: seen) b' h').2
        rw [List.any_cons, Bool.or_eq_false_iff] at hns
        have hne : Json.scalarEq b0.port b'.port = false := by
          rw [Json.scalarEq_symm]
          exact hns.1
        rw [List.find?_cons_of_neg _ (by simp [hne]), ih (b0.port :: seen) hrest b' h']

theorem firstByPort_covers :
    ∀ (bs : List Board) (seen : List Json), (∀ b ∈ bs, b.port.hashable = true) →
      ∀ b ∈ bs, seen.any (Json.scalarEq b.port) = false →
        (firstByPort bs seen).any (fun b'' => Json.scalarEq b''.port b.port) = true := by
  intro bs
  induction bs with
  | nil => intro seen _ b hb; simp at hb
  | cons b0 rest ih =>
    intro seen hall b hb hbs
    have hh : b0.port.hashable = true := hall b0 (List.mem_cons_self b0 rest)
    have hrest : ∀ b ∈ rest, b.port.hashable = true :=
      fun b hb => hall b (List.mem_cons_of_mem b0 hb)
    unfold firstByPort
    by_cases hs : seen.any (Json.scalarEq b0.port) = true
    · rw [if_pos hs]
      rcases List.mem_cons.mp hb with rfl | hb'
      · rw [hbs] at hs; exact absurd hs Bool.false_ne_true
      · exact ih seen hrest b hb' hbs
    · rw [if_neg hs]
      by_cases he : Json.scalarEq b0.port b.port = true
      · simp [List.any_cons, he]
      · rcases List.mem_cons.mp hb with rfl | hb'
        · exact absurd (Json.scalarEq_refl hh) he
        · have hnotseen : (b0.port :: seen).any (Json.scalarEq b.port) = false := by
            rw [List.any_cons, Bool.or_eq_false_iff]
            refine ⟨?_, hbs⟩
            rw [Json.scalarEq_symm]
            exact Bool.not_eq_true _ ▸ (by simpa using he)
          rw [List.any_cons]
          rw [ih (b0.port :: seen) hrest b hb' hnotseen]
          simp

/-! ## Helper lemmas: method 2 of discovery on well-shaped output -/

theorem processDetected_ok_fqbn (d : Json) (bs : List Board)
    (h : processDetected d = .ok bs) : ∀ b ∈ bs, b.fqbn.isSome = true := by
  simp only [processDetected, bind, Except.bind, pure, Except.pure] at h
  repeat' split at h
  all_goals first
    | exact Except.noConfusion h
    | (injection h with h; rw [← h]; simp)

theorem pyLookup_nil (k : String) : pyLookup [] k = none := rfl

theorem protocolExcluded_str (s : String) :
    protocolExcluded (.str s) =
      .ok (if pyTruthy (.str s) = true then !strIncludes "serial" s else false) := by
  unfold protocolExcluded
  split <;> simp_all

theorem processDetected_wellShaped (d : Json) (hws : wellShapedDetected d = true) :
    ∃ bs, processDetected d = .ok bs ∧ ∀ b ∈ bs, b.port.hashable = true := by
  cases d with
  | null => simp [wellShapedDetected] at hws
  | bool b => simp [wellShapedDetected] at hws
  | num n => simp [wellShapedDetected] at hws
  | str s => simp [wellShapedDetected] at hws
  | arr l => simp [wellShapedDetected] at hws
  | obj kvs =>
    simp only [wellShapedDetected, Bool.and_eq_true] at hws
    obtain ⟨h1, h2⟩ := hws
    cases hp : pyLookup kvs "port" with
    | none =>
      refine ⟨[], ?_, by simp⟩
      simp [processDetected, pyGet, hp, pyLookup_nil, bind, Except.bind, pure,
        Except.pure, pyTruthy]
    | some pj =>
      rw [hp] at h1
      cases pj with
      | null => simp at h1
      | bool b => simp at h1
      | num n => simp at h1
      | str s => simp at h1
      | arr l => simp at h1
      | obj pkvs =>
        rw [Bool.and_eq_true] at h1
        obtain ⟨h1a, h1p⟩ := h1
        cases ha : pyLookup pkvs "address" with
        | none =>
          refine ⟨[], ?_, by simp⟩
          simp [processDetected, pyGet, hp, ha, bind, Except.bind, pure, Except.pure,
            pyTruthy]
        | some aj =>
          rw [ha] at h1a
          cases aj with
          | null => simp at h1a
          | bool b => simp at h1a
          | num n => simp at h1a
          | arr l => simp at h1a
          | obj o => simp at h1a
          | str a =>
            by_cases ha0 : a = ""
            · subst ha0
              refine ⟨[], ?_, by simp⟩
              simp [processDetected, pyGet, hp, ha, bind, Except.bind, pure, Except.pure,
                pyTruthy]
            · have hmbkey : ∀ protocol : Json,
                  pyGet (Json.obj pkvs) "protocol" (Json.str "") = .ok protocol →
                  protocolExcluded protocol = .ok false →
                  ∃ bs, processDetected (Json.obj kvs) = .ok bs ∧
                    ∀ b ∈ bs, b.port.hashable = true := by
                intro protocol hproto hskip
                cases hmb : pyLookup kvs "matching_boards" with
                | none =>
                  cases hres : processDetected (Json.obj kvs) with
                  | error e =>
                    exfalso
                    simp_all [processDetected, pyGet, bind, Except.bind, pure,
                      Except.pure, pyTruthy, pyIndex0]
                  | ok bs =>
                    refine ⟨bs, rfl, ?_⟩
                    simp_all [processDetected, pyGet, bind, Except.bind, pure,
                      Except.pure, pyTruthy, pyIndex0]
                    intro b hb
                    rw [← hres] at hb
                    simp only [List.mem_singleton] at hb
                    subst hb
                    rfl
                | some mj =>
                  rw [hmb] at h2
                  cases mj with
                  | null =>
                    cases hres : processDetected (Json.obj kvs) with
                    | error e =>
                      exfalso
                      simp_all [processDetected, pyGet, bind, Except.bind, pure,
                        Except.pure, pyTruthy, pyIndex0]
                    | ok bs =>
                      refine ⟨bs, rfl, ?_⟩
                      simp_all [processDetected, pyGet, bind, Except.bind, pure,
                        Except.pure, pyTruthy, pyIndex0]
                      intro b hb
                      rw [← hres] at hb
                      simp only [List.mem_singleton] at hb
                      subst hb
                      rfl
                  | bool b => simp at h2
                  | num n => simp at h2
                  | str s => simp at h2
                  | obj o => simp at h2
                  | arr l =>
                    cases l with
                    | nil =>
                      cases hres : processDetected (Json.obj kvs) with
                      | error e =>
                        exfalso
                        simp_all [processDetected, pyGet, bind, Except.bind, pure,
                          Except.pure, pyTruthy, pyIndex0]
                      | ok bs =>
                        refine ⟨bs, rfl, ?_⟩
                        simp_all [processDetected, pyGet, bind, Except.bind, pure,
                          Except.pure, pyTruthy, pyIndex0]
                        intro b hb
                        rw [← hres] at hb
                        simp only [List.mem_singleton] at hb
                        subst hb
                        rfl
                    | cons x t =>
                      cases x with
                      | null => simp at h2
                      | bool b => simp at h2
                      | num n => simp at h2
                      | str s => simp at h2
                      | arr l2 => simp at h2
                      | obj f =>
                        cases hres : processDetected (Json.obj kvs) with
                        | error e =>
                          exfalso
                          simp_all [processDetected, pyGet, bind, Except.bind, pure,
                            Except.pure, pyTruthy, pyIndex0]
                        | ok bs =>
                          refine ⟨bs, rfl, ?_⟩
                          simp_all [processDetected, pyGet, bind, Except.bind, pure,
                            Except.pure, pyTruthy, pyIndex0]
                          intro b hb
                          rw [← hres] at hb
                          simp only [List.mem_singleton] at hb
                          subst hb
                          rfl
              cases hpr : pyLookup pkvs "protocol" with
              | none =>
                refine hmbkey (Json.str "") ?_ ?_
                · simp [pyGet, hpr]
                · simp [protocolExcluded_str, pyTruthy]
              | some prj =>
                rw [hpr] at h1p
                cases prj with
                | null => simp at h1p
                | bool b => simp at h1p
                | num n => simp at h1p
                | arr l => simp at h1p
                | obj o => simp at h1p
                | str s =>
                  by_cases hs0 : s = ""
                  · subst hs0
                    refine hmbkey (Json.str "") ?_ ?_
                    · simp [pyGet, hpr]
                    · rfl
                  · cases hser : strIncludes "serial" s with
                    | true =>
                      refine hmbkey (Json.str s) ?_ ?_
                      · simp [pyGet, hpr]
                      · rw [protocolExcluded_str]
                        simp [pyTruthy, hs0, hser]
                    | false =>
                      cases hres : processDetected (Json.obj kvs) with
                      | error e =>
                        exfalso
                        simp_all [processDetected, pyGet, bind, Except.bind, pure,
                          Except.pure, pyTruthy, protocolExcluded_str]
                      | ok bs =>
                        refine ⟨bs, rfl, ?_⟩
                        simp_all [processDetected, pyGet, bind, Except.bind, pure,
                          Except.pure, pyTruthy, protocolExcluded_str]

/-! ## Helper lemmas: discovery composed -/

theorem cliBoards_ok_fqbn (tool : ToolOutcome) (m2 : List Board)
    (h : cliBoards tool = .ok m2) : ∀ b ∈ m2, b.fqbn.isSome = true := by
  cases tool with
  | noTool => injection h with h; rw [← h]; simp
  | timedOut => injection h with h; rw [← h]; simp
  | ran rc out =>
    simp only [cliBoards] at h
    by_cases hrc : rc = 0
    · rw [if_pos hrc] at h
      cases out with
      | invalid => injection h with h; rw [← h]; simp
      | valid j =>
        simp only [bind, Except.bind, pure, Except.pure] at h
        cases hdp : pyGet j "detected_ports" (.arr []) with
        | error e => simp only [hdp] at h; exact Except.noConfusion h
        | ok dp =>
          simp only [hdp] at h
          cases hit : pyIter dp with
          | error e => simp only [hit] at h; exact Except.noConfusion h
          | ok items =>
            simp only [hit] at h
            cases hmm : items.mapM processDetected with
            | error e => simp only [hmm] at h; exact Except.noConfusion h
            | ok lists =>
              simp only [hmm] at h
              injection h with h
              rw [← h]
              intro b hb
              obtain ⟨bs, hbs, hbmem⟩ := List.mem_flatten.mp hb
              obtain ⟨d, _, hd⟩ := mapM_ok_mem processDetected items lists hmm bs hbs
              exact processDetected_ok_fqbn d bs hd b hbmem
    · rw [if_neg hrc] at h
      injection h with h; rw [← h]; simp

theorem cliBoards_wellShaped (tool : ToolOutcome) (h : wellShapedTool tool = true) :
    ∃ m2, cliBoards tool = .ok m2 ∧ ∀ b ∈ m2, b.port.hashable = true := by
  cases tool with
  | noTool => exact ⟨[], rfl, by simp⟩
  | timedOut => exact ⟨[], rfl, by simp⟩
  | ran rc out =>
    simp only [wellShapedTool] at h
    by_cases hrc : rc = 0
    · rw [if_pos hrc] at h
      simp only [cliBoards, if_pos hrc]
      cases out with
      | invalid => exact ⟨[], rfl, by simp⟩
      | valid j =>
        cases j with
        | null => simp [wellShapedOutput] at h
        | bool b => simp [wellShapedOutput] at h
        | num n => simp [wellShapedOutput] at h
        | str s => simp [wellShapedOutput] at h
        | arr l => simp [wellShapedOutput] at h
        | obj kvs =>
          simp only [wellShapedOutput] at h
          cases hdp : pyLookup kvs "detected_ports" with
          | none =>
            refine ⟨[], ?_, by simp⟩
            simp only [pyGet, hdp, bind, Except.bind, Option.getD]
            rfl
          | some dj =>
            rw [hdp] at h
            cases dj with
            | null => simp at h
            | bool b => simp at h
            | num n => simp at h
            | str s => simp at h
            | obj o => simp at h
            | arr ds =>
              have hall : ∀ d ∈ ds, wellShapedDetected d = true := by
                intro d hd
                exact List.all_eq_true.mp h d hd
              have htot : ∀ d ∈ ds, ∃ bs, processDetected d = .ok bs := by
                intro d hd
                obtain ⟨bs, hbs, _⟩ := processDetected_wellShaped d (hall d hd)
                exact ⟨bs, hbs⟩
              obtain ⟨ls, hls⟩ := mapM_total processDetected ds htot
              refine ⟨ls.flatten, ?_, ?_⟩
              · simp only [pyGet, hdp, bind, Except.bind, pyIter, Option.getD]
                rw [hls]
                rfl
              · intro b hb
                obtain ⟨bs, hbs, hbmem⟩ := List.mem_flatten.mp hb
                obtain ⟨d, hd, hdok⟩ := mapM_ok_mem processDetected ds ls hls bs hbs
                obtain ⟨bs', hbs', hhash⟩ := processDetected_wellShaped d (hall d hd)
                rw [hdok] at hbs'
                injection hbs' with hbs'
                exact hhash b (hbs' ▸ hbmem)
    · simp only [cliBoards, if_neg hrc]
      exact ⟨[], rfl, by simp⟩

theorem pyserialBoards_shape (env : SerialEnv) :
    ∀ b ∈ pyserialBoards env, b.port.hashable = true ∧ b.fqbn = none := by
  intro b hb
  unfold pyserialBoards at hb
  by_cases hs : env.hasSerial
  · rw [if_pos hs] at hb
    obtain ⟨p, _, rfl⟩ := List.mem_map.mp hb
    exact ⟨rfl, rfl⟩
  · rw [if_neg hs] at hb
    simp at hb

theorem discovery_ok_of_wellShapedTool (env : SerialEnv) (tool : ToolOutcome)
    (h : wellShapedTool tool = true) :
    discoveryOk (list_arduino_boards env tool) = true := by
  obtain ⟨m2, hm2, hhash2⟩ := cliBoards_wellShaped tool h
  have hall : ∀ b ∈ pyserialBoards env ++ m2, b.port.hashable = true := by
    intro b hb
    rcases List.mem_append.mp hb with hb1 | hb2
    · exact (pyserialBoards_shape env b hb1).1
    · exact hhash2 b hb2
  obtain ⟨l, hl⟩ := dedupBoards_total (pyserialBoards env ++ m2) [] hall
  simp [list_arduino_boards, hm2, hl, bind, Except.bind, discoveryOk]

/-! ## Helper lemmas: serial collection; claim theorems -/


theorem infix_lead {α : Type} (x a : List α) : x <:+: x ++ a :=
  ⟨[], a, by simp⟩

theorem collectLines_eq (events : List SerialEvent) :
    collectLines events = nonEmptyDecodedLines events := by
  induction events with
  | nil => rfl
  | cons e rest ih =>
    cases e with
    | idle => simp [collectLines, nonEmptyDecodedLines, List.filterMap_cons] at ih ⊢; exact ih
    | readFailed => simp [collectLines, nonEmptyDecodedLines, List.filterMap_cons] at ih ⊢; exact ih
    | line s =>
      by_cases h0 : s = ""
      · subst h0
        simp [collectLines, nonEmptyDecodedLines, List.filterMap_cons] at ih ⊢
        exact ih
      · simp [collectLines, nonEmptyDecodedLines, List.filterMap_cons, h0] at ih ⊢
        exact ih

/-- C1: the deploy pipeline runs write, compile, upload strictly in order:
after a successful write, a compile failure halts the pipeline with
`stage = "compile"` and the compiler's error text, and the upload tool is
never invoked (counter 0); when all three stages succeed the result has
`success = true` and the written sketch folder path. -/
theorem deploy_pipeline_staged (sketchDir code port name : String) (env : DeployEnv)
    (hw : env.write = .wrote) :
    ((compile_sketch env.compileRun).success = false →
      deploy_code sketchDir code port name env =
        ({ success := false, stage := some "compile",
           error := (compile_sketch env.compileRun).errors,
           sketch_path := some (sketch_folder_path sketchDir name) }, 0))
    ∧ (∀ r, env.compileRun = .completed r → (r.returncode == 0) = false →
        (deploy_code sketchDir code port name env).1.error = some r.stderr)
    ∧ ((compile_sketch env.compileRun).success = true →
        (upload_sketch port env.upload).1.success = true →
        (deploy_code sketchDir code port name env).1.success = true ∧
        (deploy_code sketchDir code port name env).1.sketch_path =
          some (sketch_folder_path sketchDir name)) := by
  refine ⟨?_, ?_, ?_⟩
  · intro hc
    simp only [deploy_code, hw]
    simp [hc]
  · intro r hr hrc
    have hc : (compile_sketch env.compileRun).success = false := by
      rw [hr]; simp [compile_sketch, hrc]
    simp only [deploy_code, hw]
    simp [hc, hr, compile_sketch, hrc]
    exact beq_eq_false_iff_ne.mp hrc
  · intro hc hu
    simp only [deploy_code, hw]
    simp [hc, hu]

theorem deploy_pipeline_staged_witness :
    deploy_code "sketches" "void setup();" "/dev/ttyUSB0" "blink" envCompileFail =
      ({ success := false, stage := some "compile", error := some "compile boom",
         sketch_path := some "sketches/blink" }, 0) := by
  have h := (deploy_pipeline_staged "sketches" "void setup();" "/dev/ttyUSB0" "blink"
    envCompileFail rfl).1 rfl
  exact h.trans rfl

/-- C2: for every result of `compile_sketch` and `upload_sketch`, over all
completed/tool-missing/timeout outcomes, `errors` is non-null exactly when
`success` is false. -/
theorem toolchain_errors_iff_failure (run : RunOutcome) (port : String) (env : UploadEnv) :
    ((compile_sketch run).errors ≠ none ↔ (compile_sketch run).success = false)
    ∧ ((upload_sketch port env).1.errors ≠ none ↔ (upload_sketch port env).1.success = false) := by
  constructor
  · cases run with
    | completed r =>
      by_cases hrc : r.returncode = 0
      · simp [compile_sketch, hrc]
      · simp [compile_sketch, hrc]
    | noTool => simp [compile_sketch]
    | timedOut => simp [compile_sketch]
  · unfold upload_sketch
    by_cases hacc : (!env.portAccessible && !env.fixSucceeds) = true
    · simp [hacc]
    · rw [Bool.not_eq_true] at hacc
      rw [hacc]
      cases hrun : env.run with
      | completed r =>
        by_cases hrc : r.returncode = 0
        · simp [hrc]
        · by_cases hperm : ((r.stderr != "") &&
              strIncludes "permission denied" (pyLower r.stderr)) = true
          · simp [hrc, hperm]
          · rw [Bool.not_eq_true] at hperm
            simp [hrc, hperm]
      | noTool => simp
      | timedOut => simp

/-- C3: when the pre-flight accessibility check fails and the
privilege-escalation fix also fails, `upload_sketch` aborts with the
remediation hint (which names the literal port and all three fix options)
and the external upload tool is never invoked. -/
theorem upload_preflight_short_circuit (port : String) (env : UploadEnv)
    (hacc : env.portAccessible = false) (hfix : env.fixSucceeds = false) :
    upload_sketch port env =
      ({ success := false, output := "",
         errors := some (permission_denied_hint port) }, 0)
    ∧ strIncludes port (permission_denied_hint port) = true
    ∧ strIncludes "sudo chmod a+rw" (permission_denied_hint port) = true
    ∧ strIncludes "sudo usermod -a -G uucp" (permission_denied_hint port) = true
    ∧ strIncludes "sudo cp 99-usb-serial.rules /etc/udev/rules.d/"
        (permission_denied_hint port) = true := by
  refine ⟨?_, hint_contains_port port, hint_contains_chmod port,
    hint_contains_usermod port, hint_contains_udev port⟩
  unfold upload_sketch
  rw [hacc, hfix]
  rfl

theorem upload_preflight_short_circuit_witness :
    upload_sketch "/dev/ttyUSB0" ⟨false, false, .noTool⟩ =
      ({ success := false, output := "",
         errors := some (permission_denied_hint "/dev/ttyUSB0") }, 0)
    ∧ strIncludes "/dev/ttyUSB0" (permission_denied_hint "/dev/ttyUSB0") = true
    ∧ strIncludes "sudo chmod a+rw" (permission_denied_hint "/dev/ttyUSB0") = true
    ∧ strIncludes "sudo usermod -a -G uucp" (permission_denied_hint "/dev/ttyUSB0") = true
    ∧ strIncludes "sudo cp 99-usb-serial.rules /etc/udev/rules.d/"
        (permission_denied_hint "/dev/ttyUSB0") = true :=
  upload_preflight_short_circuit "/dev/ttyUSB0" ⟨false, false, .noTool⟩ rfl rfl

/-- C4: when the pre-flight passes but the external tool exits non-zero
with a stderr reporting "permission denied" (case-insensitively), the
returned `errors` is the remediation hint prepended to the raw tool error,
so it contains both as substrings. -/
theorem upload_permission_hint_prepended (port : String) (env : UploadEnv) (r : ProcResult)
    (hacc : env.portAccessible = true) (hrun : env.run = .completed r)
    (hrc : (r.returncode == 0) = false)
    (hpd : strIncludes "permission denied" (pyLower r.stderr) = true) :
    (upload_sketch port env).1.errors =
      some (permission_denied_hint port ++ "\n\nOriginal error:\n" ++ r.stderr)
    ∧ strIncludes (permission_denied_hint port)
        (permission_denied_hint port ++ "\n\nOriginal error:\n" ++ r.stderr) = true
    ∧ strIncludes r.stderr
        (permission_denied_hint port ++ "\n\nOriginal error:\n" ++ r.stderr) = true := by
  have hne : (r.stderr != "") = true := by
    by_cases h0 : r.stderr = ""
    · rw [h0] at hpd
      exact absurd hpd (by decide)
    · simp [h0]
  refine ⟨?_, ?_, ?_⟩
  · unfold upload_sketch
    simp [hacc, hrun, hrc, hne, hpd]
  · simp only [strIncludes, decide_eq_true_eq, String.data_append]
    exact infix_ext_right _ (infix_lead _ _)
  · simp only [strIncludes, decide_eq_true_eq, String.data_append]
    exact infix_tail _ _

theorem upload_permission_hint_prepended_witness :
    (upload_sketch "/dev/ttyUSB0" envToolPermDenied).1.errors =
      some (permission_denied_hint "/dev/ttyUSB0" ++ "\n\nOriginal error:\n" ++
        "avrdude: ser_open(): cannot open device: Permission denied")
    ∧ strIncludes (permission_denied_hint "/dev/ttyUSB0")
        (permission_denied_hint "/dev/ttyUSB0" ++ "\n\nOriginal error:\n" ++
          "avrdude: ser_open(): cannot open device: Permission denied") = true
    ∧ strIncludes "avrdude: ser_open(): cannot open device: Permission denied"
        (permission_denied_hint "/dev/ttyUSB0" ++ "\n\nOriginal error:\n" ++
          "avrdude: ser_open(): cannot open device: Permission denied") = true :=
  upload_permission_hint_prepended "/dev/ttyUSB0" envToolPermDenied
    ⟨1, "", "avrdude: ser_open(): cannot open device: Permission denied"⟩
    rfl rfl rfl (by decide)

/-- C6: the sanitized sketch name is always non-empty and consists only of
lowercase alphanumerics and underscores; an input with no alphanumerics or
underscores falls back to the default name `"sketch"`. -/
theorem write_sketch_sanitizes (name : String) :
    safe_name name ≠ ""
    ∧ (∀ c ∈ (safe_name name).data, (c.isLower || c.isDigit || c == '_') = true)
    ∧ ((∀ c ∈ name.data, (c.isAlphanum || c == '_') = false) → safe_name name = "sketch") :=
  ⟨safe_name_nonempty name, safe_name_chars name, safe_name_all_junk name⟩

theorem write_sketch_sanitizes_witness :
    safe_name "!!!" = "sketch" ∧ safe_name "" ≠ "" :=
  ⟨(write_sketch_sanitizes "!!!").2.2 (by decide), (write_sketch_sanitizes "").1⟩

/-- C9: when the port opens successfully, `read_serial` returns the
newline-joined non-empty decoded lines of the polling window, and with an
empty window (duration 0, no bytes) it returns exactly the sentinel
`"No serial output received"`. -/
theorem read_serial_joined_or_sentinel (events : List SerialEvent) :
    read_serial true .opened events =
      (if nonEmptyDecodedLines events = [] then "No serial output received"
       else String.intercalate "\n" (nonEmptyDecodedLines events))
    ∧ read_serial true .opened [] = "No serial output received" := by
  refine ⟨?_, rfl⟩
  unfold read_serial
  rw [collectLines_eq]
  by_cases h0 : nonEmptyDecodedLines events = []
  · simp [h0]
  · simp [h0, List.isEmpty_iff]

/-- C10: a deploy failure after a successful write (at compile or at
upload) still reports the written sketch folder path; only a write-stage
failure omits it. -/
theorem deploy_sketch_path_reporting (sketchDir code port name : String) (env : DeployEnv) :
    (∀ e, env.write = .raised e →
      (deploy_code sketchDir code port name env).1.sketch_path = none ∧
      (deploy_code sketchDir code port name env).1.success = false ∧
      (deploy_code sketchDir code port name env).1.stage = some "write")
    ∧ (env.write = .wrote → (compile_sketch env.compileRun).success = false →
       (deploy_code sketchDir code port name env).1.sketch_path =
         some (sketch_folder_path sketchDir name))
    ∧ (env.write = .wrote → (compile_sketch env.compileRun).success = true →
       (upload_sketch port env.upload).1.success = false →
       (deploy_code sketchDir code port name env).1.sketch_path =
         some (sketch_folder_path sketchDir name) ∧
       (deploy_code sketchDir code port name env).1.success = false ∧
       (deploy_code sketchDir code port name env).1.stage = some "upload") := by
  refine ⟨?_, ?_, ?_⟩
  · intro e he
    simp only [deploy_code, he]
    simp
  · intro hw hc
    simp only [deploy_code, hw]
    simp [hc]
  · intro hw hc hu
    simp only [deploy_code, hw]
    simp [hc, hu]

theorem deploy_sketch_path_reporting_witness :
    (deploy_code "sketches" "void setup();" "/dev/ttyUSB0" "blink" envUploadFail).1.sketch_path =
      some "sketches/blink"
    ∧ (deploy_code "sketches" "void setup();" "/dev/ttyUSB0" "blink" envUploadFail).1.success
        = false := by
  have h := (deploy_sketch_path_reporting "sketches" "void setup();" "/dev/ttyUSB0" "blink"
    envUploadFail).2.2 rfl rfl rfl
  exact ⟨h.1.trans rfl, h.2.1⟩

/-- C5: discovery returns no port twice; the first record seen for a port
(heuristic records come first, then tool records) is kept and every later
record for the same port is discarded. -/
theorem discovery_dedup_first_wins (env : SerialEnv) (tool : ToolOutcome)
    (m2 l : List Board) (hm2 : cliBoards tool = .ok m2)
    (hl : list_arduino_boards env tool = .ok l) :
    l.Pairwise (fun a b => a.port ≠ b.port)
    ∧ (∀ b' ∈ l, (pyserialBoards env ++ m2).find?
        (fun b => Json.scalarEq b.port b'.port) = some b')
    ∧ (∀ b ∈ pyserialBoards env ++ m2,
        l.any (fun b'' => Json.scalarEq b''.port b.port) = true) := by
  have hded : dedupBoards (pyserialBoards env ++ m2) [] = .ok l := by
    simp only [list_arduino_boards, bind, Except.bind, hm2] at hl
    exact hl
  have hall := dedupBoards_all_hashable _ _ _ hded
  have hfb := dedupBoards_ok_firstByPort _ _ _ hded
  subst hfb
  exact ⟨firstByPort_pairwise _ _ hall,
    fun b' hb' => firstByPort_find _ _ hall b' hb',
    fun b hb => firstByPort_covers _ _ hall b hb rfl⟩

theorem discovery_dedup_first_wins_witness :
    list_arduino_boards envClone toolSamePort = .ok [hBoardClone]
    ∧ ([hBoardClone] : List Board).Pairwise (fun a b => a.port ≠ b.port)
    ∧ (pyserialBoards envClone ++ [tBoardUno]).find?
        (fun b => Json.scalarEq b.port hBoardClone.port) = some hBoardClone := by
  refine ⟨rfl, ?_, ?_⟩
  · exact (discovery_dedup_first_wins envClone toolSamePort [tBoardUno] [hBoardClone]
      rfl rfl).1
  · exact (discovery_dedup_first_wins envClone toolSamePort [tBoardUno] [hBoardClone]
      rfl rfl).2.1 hBoardClone (by simp)

/-- C7 counterexample: a pyserial-heuristic record in the returned list has
no `fqbn` field at all, refuting "every Board Record contains an fqbn
field". -/
theorem heuristic_record_lacks_fqbn :
    list_arduino_boards envUnoOnly .noTool = .ok [pyserialBoard portUno]
    ∧ (pyserialBoard portUno).fqbn = none :=
  ⟨rfl, rfl⟩

/-- C7 (amended): every record produced by the external-tool source carries
an fqbn field (the tool's match or the default), while heuristic-sourced
records never carry one. -/
theorem fqbn_presence_by_source (env : SerialEnv) (tool : ToolOutcome) (m2 : List Board)
    (hm2 : cliBoards tool = .ok m2) :
    (∀ b ∈ m2, b.fqbn.isSome = true) ∧ (∀ b ∈ pyserialBoards env, b.fqbn = none) :=
  ⟨cliBoards_ok_fqbn tool m2 hm2, fun b hb => (pyserialBoards_shape env b hb).2⟩

theorem fqbn_presence_by_source_witness :
    cliBoards toolSamePort = .ok [tBoardUno] ∧ tBoardUno.fqbn.isSome = true := by
  refine ⟨rfl, ?_⟩
  exact (fqbn_presence_by_source envClone toolSamePort [tBoardUno] rfl).1 tBoardUno (by simp)

/-- C8 counterexample: a syntactically valid tool output of unexpected
shape (a top-level JSON array) makes discovery raise an uncaught
`AttributeError` instead of degrading silently. -/
theorem discovery_raises_on_array_output :
    list_arduino_boards ⟨false, []⟩ (.ran 0 (.valid (.arr []))) =
      .error .attributeError := rfl

/-- C8 (amended): discovery never raises when the serial library is
unavailable, the external tool is missing, times out, exits non-zero,
emits unparseable output, or emits parsed output of the expected object
shape; only a successfully parsed output of unexpected shape can raise. -/
theorem discovery_degrades_without_exception (env : SerialEnv) (tool : ToolOutcome)
    (h : wellShapedTool tool = true) :
    discoveryOk (list_arduino_boards env tool) = true :=
  discovery_ok_of_wellShapedTool env tool h

theorem discovery_degrades_without_exception_witness :
    wellShapedTool .noTool = true
    ∧ discoveryOk (list_arduino_boards ⟨false, []⟩ .noTool) = true :=
  ⟨rfl, discovery_degrades_without_exception ⟨false, []⟩ .noTool rfl⟩


end ArduinoVision
